import Mathlib

/-!
# Verification of the jirafs namespace engine (`jira.go`)

Shallow embedding of the view hierarchy of `jira.go`: walk/list/remove
dispatch, close-commit write-back for issue fields, the link-diff
write-back, the new-issue commit state machine, search views, and the
workflow transition resolver (the resolver itself lives outside the
provided source and is modelled from the design document).

Go `string` is modelled by Lean `String`, Go maps by association lists
with insert-overwrite semantics, remote-tracker calls by explicit
parameters (`Except`-valued oracles) together with an explicit log of
the calls a code path performs.
-/

namespace Jirafs

/-- Error values the embedded code paths can produce, one constructor per
distinct error the Go source creates or propagates. -/
inductive JErr where
  /-- `trees.ErrNoSuchFile` -/
  | noSuchFile : JErr
  /-- `trees.ErrPermissionDenied` -/
  | permissionDenied : JErr
  /-- `errors.New("issue already committed")` -/
  | alreadyCommitted : JErr
  /-- the resolver's no-path error, carrying the attempted search depth -/
  | noPathFound (depth : Nat) : JErr
  /-- `errors.New("oops")`: issue missing `Fields` in the status commit -/
  | missingFields : JErr
  /-- `errors.New("oops2")`: issue missing `Status` in the status commit -/
  | missingStatus : JErr
  /-- `errors.New("nil fields in issue")` in `SearchView.Walk` -/
  | nilFields : JErr
  /-- `errors.New("no fields")` in `AllIssuesView.Walk` -/
  | noFields : JErr
  /-- an error returned by a remote tracker call, carried verbatim -/
  | remote (msg : String) : JErr
deriving DecidableEq, Repr

/-- `qp.DMDIR`, the directory bit of a 9P mode word. -/
def DMDIR : Nat := 0x80000000

/-- A `qp.Stat` as far as the embedded code populates it: name, mode,
owner and group. -/
structure QStat where
  name : String
  mode : Nat
  uid : String
  gid : String
deriving DecidableEq, Repr

/-- Modelled from the spec: `StringsToStats` is the namespace-glue helper
(not under `src/`) that "turn[s] a set of names into directory-listing
entries with uniform ownership/permission metadata": one stat per name,
all with the given mode, owner and group. -/
def StringsToStats (strs : List String) (mode : Nat) (user group : String) : List QStat :=
  strs.map fun s => ⟨s, mode, user, group⟩

/-- The node a successful `Walk` hands back, as far as the claims need it:
a directory wrapping a child view (`NewJiraDir`), a command file
(`NewCommandFile`, listing its accepted command names), or a synthetic
file, possibly wrapped in a `CloseSaver` (`writable = true`) whose
`forceTrunc` flag is recorded. Contents are modelled separately by the
per-field commit functions. -/
inductive WalkNode where
  | dir (name : String) (mode : Nat) (uid gid : String) : WalkNode
  | cmdFile (name : String) (mode : Nat) (uid gid : String) (cmds : List String) : WalkNode
  | file (name : String) (mode : Nat) (uid gid : String)
      (writable : Bool) (forceTrunc : Bool) : WalkNode
deriving DecidableEq, Repr

/-- `strings.Replace(str, "\n", "", -1)`: remove every newline character. -/
def stripNL (s : String) : String :=
  ⟨s.data.filter fun c => c ≠ '\n'⟩

/-- `strings.Split(s, sep)` for the single-character separators the source
uses (`"\n"`, `" "`, `"-"`): split at every occurrence, keeping empty
pieces, so a string with `n` separators yields `n + 1` pieces. -/
def splitOnChar (sep : Char) (s : String) : List String :=
  go s.data []
where
  go : List Char → List Char → List String
  | [], acc => [⟨acc.reverse⟩]
  | c :: cs, acc =>
      if c = sep then ⟨acc.reverse⟩ :: go cs [] else go cs (c :: acc)

/-! ## Workflow transition resolver (§4.3)

The resolver (`BuildWorkflow2`, `WorkflowGraph.Path`) is code of this
repository that is not under `src/`; `jira.go` only calls it. It is
modelled from the spec. -/

/-- Modelled from the spec: the workflow graph "mapping
`status name → [{transitionName, targetStatus}]`", edge lists kept in the
order transitions were returned by the tracker. -/
structure WorkflowGraph where
  statuses : List (String × List (String × String))
deriving Repr

/-- The (ordered) edge list out of a status: `(transitionName, targetStatus)`
pairs; a status not in the graph has no outgoing edges. -/
def WorkflowGraph.edges (g : WorkflowGraph) (s : String) : List (String × String) :=
  match g.statuses.find? (fun p => p.fst == s) with
  | some p => p.snd
  | none => []

/-- One breadth-first level: every frontier entry `(status, revPath)` is
expanded along each outgoing edge `(transitionName, targetStatus)`, in
edge order. -/
def pathStep (g : WorkflowGraph) (frontier : List (String × List String)) :
    List (String × List String) :=
  frontier.flatMap fun p =>
    (g.edges p.fst).map fun e => (e.snd, e.fst :: p.snd)

/-- Modelled from the spec: the breadth-first search behind `Path`.
`frontier` holds pairs of a reached status and the reversed
transition-name sequence that reached it; every path in the frontier has
length `depth`, and `fuel` many further levels may still be explored.
The first frontier entry matching the target (frontier order = discovery
order) wins; an exhausted frontier or exhausted fuel fails with
`NoPathFound` carrying the attempted search depth. -/
def pathSearch (g : WorkflowGraph) (target : String) :
    Nat → Nat → List (String × List String) → Except JErr (List String)
  | 0, depth, frontier =>
    match frontier.find? (fun p => p.fst == target) with
    | some p => .ok p.snd.reverse
    | none => .error (.noPathFound depth)
  | fuel + 1, depth, frontier =>
    match frontier.find? (fun p => p.fst == target) with
    | some p => .ok p.snd.reverse
    | none => pathSearch g target fuel (depth + 1) (pathStep g frontier)

/-- Modelled from the spec: `Path(fromStatus, toStatus, maxSteps)` performs
a breadth-first search over the graph, edges traversed in tracker order,
returning the transition-name sequence of the first path found whose
length does not exceed `maxSteps`; a same-status request resolves to the
explicit empty path, and an unreachable target (including exceeding
`maxSteps`) fails with `NoPathFound`. -/
def WorkflowGraph.Path (g : WorkflowGraph) (fromStatus toStatus : String) (maxSteps : Nat) :
    Except JErr (List String) :=
  pathSearch g toStatus maxSteps 0 [(fromStatus, [])]

/-- The three-status example graph from the spec:
`Open --Start--> InProgress --Resolve--> Closed`. -/
def exampleGraph : WorkflowGraph :=
  ⟨[("Open", [("Start", "InProgress")]), ("InProgress", [("Resolve", "Closed")])]⟩

theorem pathSearch_length_le (g : WorkflowGraph) (target : String) :
    ∀ (fuel depth : Nat) (frontier : List (String × List String)) (p : List String),
      (∀ q ∈ frontier, q.snd.length = depth) →
      pathSearch g target fuel depth frontier = .ok p →
      p.length ≤ depth + fuel := by
  intro fuel
  induction fuel with
  | zero =>
      intro depth frontier p hlen hrun
      rw [pathSearch] at hrun
      cases hfind : frontier.find? (fun q => q.fst == target) with
      | none => rw [hfind] at hrun; exact absurd hrun (by simp)
      | some q =>
          rw [hfind] at hrun
          have hq : q ∈ frontier := List.mem_of_find?_eq_some hfind
          have : p = q.snd.reverse := by
            simpa using hrun.symm
          subst this
          simp [hlen q hq]
  | succ fuel ih =>
      intro depth frontier p hlen hrun
      rw [pathSearch] at hrun
      cases hfind : frontier.find? (fun q => q.fst == target) with
      | some q =>
          rw [hfind] at hrun
          have hq : q ∈ frontier := List.mem_of_find?_eq_some hfind
          have : p = q.snd.reverse := by
            simpa using hrun.symm
          subst this
          simp [hlen q hq]
      | none =>
          rw [hfind] at hrun
          have hnext : ∀ q ∈ pathStep g frontier, q.snd.length = depth + 1 := by
            intro q hqmem
            rcases List.mem_flatMap.mp hqmem with ⟨r, hr, hq⟩
            rcases List.mem_map.mp hq with ⟨e, _, rfl⟩
            simp [hlen r hr]
          have := ih (depth + 1) _ p hnext hrun
          omega

/-- The search succeeds immediately on a frontier already containing the
target, whatever the graph. -/
theorem pathSearch_self (g : WorkflowGraph) (s : String) (fuel : Nat) :
    pathSearch g s fuel 0 [(s, [])] = .ok [] := by
  cases fuel <;> rw [pathSearch] <;> simp

/-! ## Issue data model

Just the parts of `go-jira`'s `Issue` that `jira.go` reads; optional
pointers become `Option`. -/

/-- A `jira.IssueLink` as `jira.go` consumes it: at most one of
`OutwardIssue`/`InwardIssue` is set (their keys are kept), plus the link
type name and the link ID. -/
structure IssueLink where
  outwardKey : Option String
  inwardKey : Option String
  typeName : String
  id : String
deriving DecidableEq, Repr

/-- The fields of `jira.IssueFields` that `jira.go` reads. Pointer-typed
fields (`Assignee`, `Status`, ... ) are `Option`; `Progress` carries
`(Progress, Total)` seconds. -/
structure IssueFields where
  assignee : Option String
  reporter : Option String
  creator : Option String
  summary : String
  description : String
  typeName : String
  typeID : String
  statusName : Option String
  priorityName : Option String
  resolutionName : Option String
  progress : Option (Nat × Nat)
  projectKey : String
  components : List String
  labels : List String
  issueLinks : List IssueLink
deriving DecidableEq, Repr

/-- A `jira.Issue`: key plus optional fields pointer. -/
structure Issue where
  key : String
  fields : Option IssueFields
deriving DecidableEq, Repr

/-! ## Status write-back (`IssueView.normalWalk`, `onClose` case `"status"`)

The transition-execution loop lives in the source; the remote calls it
makes (`GetIssue`, `BuildWorkflow2`, `TransitionIssue`) are parameters.
`TransitionIssue` is modelled as a step on an abstract tracker state `σ`
that fails without changing the state. -/

/-- The `for _, s := range p` loop of the status commit: execute each
transition name in order, stopping at (and surfacing) the first failure. -/
def runTransitions {σ : Type} (exec : σ → String → Except JErr σ) :
    σ → List String → σ × Option JErr
  | s, [] => (s, none)
  | s, t :: ts =>
    match exec s t with
    | .error e => (s, some e)
    | .ok s' => runTransitions exec s' ts

/-- The `onClose` handler of the `status` file (`jira.go` lines 528–571):
strip all newlines from the buffer, re-fetch the issue, require fields
and a current status, build the workflow graph, resolve a path to the
written target with `maxSteps = 500`, and execute it in order. -/
def statusClose {σ : Type} (getIssue : Except JErr Issue)
    (buildWorkflow : Except JErr WorkflowGraph)
    (exec : σ → String → Except JErr σ) (s0 : σ) (content : String) :
    σ × Option JErr :=
  let str := stripNL content
  match getIssue with
  | .error e => (s0, some e)
  | .ok issue =>
    match issue.fields with
    | none => (s0, some .missingFields)
    | some flds =>
      match flds.statusName with
      | none => (s0, some .missingStatus)
      | some curStatus =>
        match buildWorkflow with
        | .error e => (s0, some e)
        | .ok wg =>
          match wg.Path curStatus str 500 with
          | .error e => (s0, some e)
          | .ok p => runTransitions exec s0 p

theorem runTransitions_stop_at_failure {σ : Type}
    (exec : σ → String → Except JErr σ) (p₁ : List String) :
    ∀ (s0 s1 : σ) (t : String) (p₂ : List String) (e : JErr),
      runTransitions exec s0 p₁ = (s1, none) →
      exec s1 t = .error e →
      runTransitions exec s0 (p₁ ++ t :: p₂) = (s1, some e) := by
  induction p₁ with
  | nil =>
      intro s0 s1 t p₂ e hrun hfail
      have : s0 = s1 := by simpa [runTransitions] using hrun
      subst this
      simp [runTransitions, hfail]
  | cons u p₁ ih =>
      intro s0 s1 t p₂ e hrun hfail
      rw [runTransitions] at hrun
      cases hu : exec s0 u with
      | error e' =>
          rw [hu] at hrun
          exact absurd hrun (by simp)
      | ok s' =>
          rw [hu] at hrun
          have := ih s' s1 t p₂ e hrun hfail
          simpa [runTransitions, hu] using this

/-! ## Links write-back (`renderIssueLink`, `normalWalk` `onClose` case `"links"`)

A Go `map[string]string` is modelled by an association list with
insert-overwrite semantics (`mapSet`), membership (`mapHas`) and
deletion (`mapDel`); `linksCur` is the `cur` map built over the issue's
links, `linksDiff` the line loop, `linksClose` the whole handler,
returning the deleted link IDs and the created `(inward, outward,
relation)` triples. -/

/-- `renderIssueLink` (`jira.go` lines 308–317). -/
def renderIssueLink (l : IssueLink) (key : String) : String :=
  match l.outwardKey with
  | some o => key ++ " " ++ o ++ " " ++ l.typeName
  | none =>
    match l.inwardKey with
    | some i => i ++ " " ++ key ++ " " ++ l.typeName
    | none => ""

/-- Go map assignment `m[k] = v`: overwrite an existing entry, else append. -/
def mapSet {β : Type} (m : List (String × β)) (k : String) (v : β) : List (String × β) :=
  if m.any (fun p => p.fst == k) then
    m.map fun p => if p.fst == k then (k, v) else p
  else m ++ [(k, v)]

/-- Go map membership `_, ok := m[k]`. -/
def mapHas {β : Type} (m : List (String × β)) (k : String) : Bool :=
  m.any fun p => p.fst == k

/-- Go `delete(m, k)`. -/
def mapDel {β : Type} (m : List (String × β)) (k : String) : List (String × β) :=
  m.filter fun p => p.fst != k

/-- Go map read `m[k]` for string-valued maps: the zero value `""` when
absent (also matching a read from a `nil` map). -/
def mapGet (m : List (String × String)) (k : String) : String :=
  match m.find? (fun p => p.fst == k) with
  | some p => p.snd
  | none => ""

/-- The `cur` map of the links handler: rendered link line ↦ link ID. -/
def linksCur (key : String) (links : List IssueLink) : List (String × String) :=
  links.foldl (fun m l => mapSet m (renderIssueLink l key) l.id) []

/-- The line loop of the links handler: empty lines are skipped, lines
matching a `cur` entry remove it, the rest are collected (in input
order) as `new`. Returns (remaining `cur`, `new`). -/
def linksDiff : List (String × String) → List String →
    List (String × String) × List String
  | cur, [] => (cur, [])
  | cur, s :: rest =>
    if s == "" then linksDiff cur rest
    else if mapHas cur s then linksDiff (mapDel cur s) rest
    else
      let r := linksDiff cur rest
      (r.fst, s :: r.snd)

/-- The whole `links` `onClose` handler (`jira.go` lines 474–519): the
remaining `cur` values are the link IDs passed to `DeleteIssueLink`; the
`new` lines splitting on `" "` into exactly three fields, one of the
first two being the issue key, are the triples passed to `LinkIssues`. -/
def linksClose (key : String) (links : List IssueLink) (content : String) :
    List String × List (String × String × String) :=
  let cur := linksCur key links
  let d := linksDiff cur (splitOnChar '\n' content)
  let dels := d.fst.map Prod.snd
  let creates := d.snd.filterMap fun k =>
    let args := splitOnChar ' ' k
    if args.length != 3 then none
    else if args.getD 0 "" != key && args.getD 1 "" != key then none
    else some (args.getD 0 "", args.getD 1 "", args.getD 2 "")
  (dels, creates)

theorem linksDiff_fst (ls : List String) :
    ∀ cur : List (String × String),
      (linksDiff cur ls).fst
        = cur.filter fun p => !((ls.filter fun s => s != "").contains p.fst) := by
  induction ls with
  | nil => intro cur; simp [linksDiff]
  | cons s rest ih =>
      intro cur
      rw [linksDiff]
      split_ifs with h1 h2
      · have hs : s = "" := by simpa using h1
        subst hs
        have hlines0 : ("" :: rest).filter (fun t => t != "")
            = rest.filter (fun t => t != "") := by simp
        rw [hlines0]
        exact ih cur
      · have hs' : (s != "") = true := by simpa [bne] using h1
        have hlines : (s :: rest).filter (fun t => t != "")
            = s :: rest.filter (fun t => t != "") := by
          rw [List.filter_cons, if_pos hs']
        rw [hlines, ih (mapDel cur s)]
        unfold mapDel
        rw [List.filter_filter]
        refine List.filter_congr ?_
        intro p _
        rw [List.contains_cons]
        cases hps : p.fst == s <;> simp [hps, bne]
      · have hs' : (s != "") = true := by simpa [bne] using h1
        have hlines : (s :: rest).filter (fun t => t != "")
            = s :: rest.filter (fun t => t != "") := by
          rw [List.filter_cons, if_pos hs']
        show (linksDiff cur rest).fst = _
        rw [hlines, ih cur]
        refine List.filter_congr ?_
        intro p hp
        have hne : (p.fst == s) = false := by
          by_contra hcon
          have : (p.fst == s) = true := by
            cases hv : p.fst == s
            · exact absurd hv hcon
            · rfl
          exact h2 (List.any_eq_true.mpr ⟨p, hp, this⟩)
        rw [List.contains_cons, hne]
        simp

theorem linksDiff_snd_sub (ls : List String) :
    ∀ (cur : List (String × String)) (x : String),
      x ∈ (linksDiff cur ls).snd → x ∈ ls ∧ x ≠ "" := by
  induction ls with
  | nil => intro cur x hx; simp [linksDiff] at hx
  | cons s rest ih =>
      intro cur x hx
      rw [linksDiff] at hx
      by_cases hs : s = ""
      · rw [if_pos (by simpa using hs)] at hx
        have := ih cur x hx
        exact ⟨List.mem_cons_of_mem s this.1, this.2⟩
      · rw [if_neg (by simpa using hs)] at hx
        by_cases hhas : mapHas cur s
        · rw [if_pos hhas] at hx
          have := ih (mapDel cur s) x hx
          exact ⟨List.mem_cons_of_mem s this.1, this.2⟩
        · rw [if_neg hhas] at hx
          rcases List.mem_cons.mp hx with hcase | hcase
          · subst hcase; exact ⟨List.mem_cons_self x rest, hs⟩
          · have := ih cur x hcase
            exact ⟨List.mem_cons_of_mem s this.1, this.2⟩

theorem mapHas_mapDel_mono (cur : List (String × String)) (k s : String) :
    mapHas cur k = false → mapHas (mapDel cur s) k = false := by
  intro h
  simp only [mapHas, mapDel] at h ⊢
  cases hv : (List.filter (fun p => p.fst != s) cur).any fun p => p.fst == k
  · rfl
  · rcases List.any_eq_true.mp hv with ⟨p, hp, hpk⟩
    have : cur.any (fun p => p.fst == k) = true :=
      List.any_eq_true.mpr ⟨p, (List.mem_filter.mp hp).1, hpk⟩
    rw [h] at this
    exact this.symm

theorem linksDiff_snd_new (ls : List String) :
    ∀ (cur : List (String × String)) (x : String),
      x ∈ ls → x ≠ "" → mapHas cur x = false → x ∈ (linksDiff cur ls).snd := by
  induction ls with
  | nil => intro cur x hx; simp at hx
  | cons s rest ih =>
      intro cur x hx hne hhasx
      rw [linksDiff]
      by_cases hs : s = ""
      · rw [if_pos (by simpa using hs)]
        rcases List.mem_cons.mp hx with hcase | hcase
        · exact absurd (hcase ▸ hs) hne
        · exact ih cur x hcase hne hhasx
      · rw [if_neg (by simpa using hs)]
        by_cases hhas : mapHas cur s
        · rw [if_pos hhas]
          rcases List.mem_cons.mp hx with hcase | hcase
          · subst hcase; exact absurd hhas (by simp [hhasx])
          · exact ih (mapDel cur s) x hcase hne (mapHas_mapDel_mono cur x s hhasx)
        · rw [if_neg hhas]
          rcases List.mem_cons.mp hx with hcase | hcase
          · subst hcase; exact List.mem_cons_self x _
          · exact List.mem_cons_of_mem s (ih cur x hcase hne hhasx)

/-- Following the claim's words only (not the source): the
whitespace-separated tokens of a line, i.e. its maximal runs of
non-whitespace characters. Used to compare the claim's leniency rule
against the source's single-space split. -/
def specWhitespaceTokens (s : String) : List String :=
  go s.data []
where
  go : List Char → List Char → List String
  | [], acc => if acc.isEmpty then [] else [⟨acc.reverse⟩]
  | c :: cs, acc =>
      if c.isWhitespace then
        if acc.isEmpty then go cs [] else ⟨acc.reverse⟩ :: go cs []
      else go cs (c :: acc)

/-! ## Claim theorems C1, C2 -/

/-- C1: `Path(from, to, maxSteps)` resolves a same-status request to the
explicit empty transition sequence (never an error), never returns a
path longer than `maxSteps`, and on the example graph
`Open --Start--> InProgress --Resolve--> Closed` returns
`["Start", "Resolve"]` for `Path("Open","Closed",500)` while
`Path("Open","Closed",0)` (no direct edge) fails with `NoPathFound`. -/
theorem C1_path_resolver :
    (∀ (g : WorkflowGraph) (s : String) (maxSteps : Nat),
        g.Path s s maxSteps = .ok [])
    ∧ (∀ (g : WorkflowGraph) (f t : String) (m : Nat) (p : List String),
        g.Path f t m = .ok p → p.length ≤ m)
    ∧ exampleGraph.Path "Open" "Closed" 500 = .ok ["Start", "Resolve"]
    ∧ exampleGraph.Path "Open" "Closed" 0 = .error (.noPathFound 0) := by
  refine ⟨fun g s maxSteps => pathSearch_self g s maxSteps, ?_, by rfl, by rfl⟩
  intro g f t m p hp
  have := pathSearch_length_le g t m 0 [(f, [])] p (by simp) hp
  simpa using this

/-- Witness for C1: the quantified parts instantiated on the example
graph. -/
theorem C1_path_resolver_witness :
    exampleGraph.Path "InProgress" "InProgress" 500 = .ok []
    ∧ (["Start", "Resolve"] : List String).length ≤ 500 :=
  ⟨C1_path_resolver.1 exampleGraph "InProgress" 500,
   C1_path_resolver.2.1 exampleGraph "Open" "Closed" 500 ["Start", "Resolve"]
     C1_path_resolver.2.2.1⟩

/-- C2: committing a write to the `status` file re-fetches the issue,
builds the workflow graph, resolves a path from the current status to
the written target with `maxSteps = 500`, and executes the returned
transition names in order; if some prefix `p₁` succeeds (reaching
tracker state `s1`) and the next transition `t` fails with `e`, the
remaining transitions are not executed, the error is surfaced, and the
final tracker state is `s1` — the previously executed transitions stay
applied (no rollback). -/
theorem C2_status_commit (σ : Type) (issue : Issue) (flds : IssueFields)
    (cur : String) (wg : WorkflowGraph) (content : String)
    (exec : σ → String → Except JErr σ) (s0 : σ) (p : List String)
    (hf : issue.fields = some flds) (hs : flds.statusName = some cur)
    (hpath : wg.Path cur (stripNL content) 500 = .ok p) :
    statusClose (.ok issue) (.ok wg) exec s0 content = runTransitions exec s0 p
    ∧ ∀ (p₁ p₂ : List String) (t : String) (s1 : σ) (e : JErr),
        p = p₁ ++ t :: p₂ →
        runTransitions exec s0 p₁ = (s1, none) →
        exec s1 t = .error e →
        statusClose (.ok issue) (.ok wg) exec s0 content = (s1, some e) := by
  have hmain : statusClose (.ok issue) (.ok wg) exec s0 content
      = runTransitions exec s0 p := by
    simp only [statusClose, hf, hs, hpath]
  refine ⟨hmain, ?_⟩
  intro p₁ p₂ t s1 e hsplit hpre hfail
  rw [hmain, hsplit]
  exact runTransitions_stop_at_failure exec p₁ s0 s1 t p₂ e hpre hfail

/-- C3 counterexample: the line `"ABC-1  ABC-3 Relates"` (two spaces) has
exactly three whitespace-separated tokens and its first token is the
current issue's key, yet the handler creates no link from it: the source
splits on single spaces (`strings.Split(k, " ")`), sees four fields, and
skips the line as malformed. -/
theorem C3_links_counterexample :
    specWhitespaceTokens "ABC-1  ABC-3 Relates" = ["ABC-1", "ABC-3", "Relates"]
    ∧ linksClose "ABC-1" [] "ABC-1  ABC-3 Relates\n" = ([], []) :=
  ⟨rfl, rfl⟩

/-- C3 (amended: "three whitespace-separated tokens" → "exactly three
single-space-separated fields"): the links commit deletes exactly the
current links whose rendered line is absent from the submitted text;
every created link comes from a nonempty submitted line with exactly
three space-separated fields, one of the first two being the issue key;
every nonempty line with that shape not matching a current link is
created; and the spec's concrete example behaves as stated. -/
theorem C3_links_diff (key : String) (links : List IssueLink) (content : String) :
    (linksClose key links content).fst
      = ((linksCur key links).filter fun p =>
          !(((splitOnChar '\n' content).filter fun s => s != "").contains p.fst)).map
          Prod.snd
    ∧ (∀ c ∈ (linksClose key links content).snd,
        ∃ line, line ∈ splitOnChar '\n' content ∧ line ≠ ""
          ∧ splitOnChar ' ' line = [c.1, c.2.1, c.2.2]
          ∧ (c.1 = key ∨ c.2.1 = key))
    ∧ (∀ line ∈ splitOnChar '\n' content, line ≠ "" →
        mapHas (linksCur key links) line = false →
        ∀ a b r, splitOnChar ' ' line = [a, b, r] → (a = key ∨ b = key) →
        (a, b, r) ∈ (linksClose key links content).snd)
    ∧ linksClose "ABC-1" [⟨some "ABC-2", none, "Blocks", "30001"⟩]
        "ABC-1 ABC-2 Blocks\nABC-1 ABC-3 Relates\n"
      = ([], [("ABC-1", "ABC-3", "Relates")]) := by
  refine ⟨?_, ?_, ?_, rfl⟩
  · simp only [linksClose]
    rw [linksDiff_fst]
  · intro c hc
    simp only [linksClose] at hc
    rcases List.mem_filterMap.mp hc with ⟨k, hk, hfk⟩
    have hsub := linksDiff_snd_sub (splitOnChar '\n' content) (linksCur key links) k hk
    have hstep : splitOnChar ' ' k = [c.1, c.2.1, c.2.2] ∧ (c.1 = key ∨ c.2.1 = key) := by
      split_ifs at hfk with hlen hkey
      · have hlen3 : (splitOnChar ' ' k).length = 3 := by
          by_contra hcon
          exact hlen (by simpa using hcon)
        rcases List.length_eq_three.mp hlen3 with ⟨a, b, r, habr⟩
        have hc' : c = (a, b, r) := by
          rw [habr] at hfk
          simpa [List.getD] using hfk.symm
        subst hc'
        rw [habr] at hkey
        refine ⟨habr, ?_⟩
        have hnand : ¬(a ≠ key ∧ b ≠ key) := by
          intro hcon
          exact hkey (by simp [List.getD, hcon.1, hcon.2, bne])
        rcases not_and_or.mp hnand with h | h
        · exact Or.inl (not_not.mp h)
        · exact Or.inr (not_not.mp h)
    exact ⟨k, hsub.1, hsub.2, hstep.1, hstep.2⟩
  · intro line hline hne hhas a b r hsplit hkey
    simp only [linksClose]
    refine List.mem_filterMap.mpr ⟨line, ?_, ?_⟩
    · exact linksDiff_snd_new (splitOnChar '\n' content) (linksCur key links) line
        hline hne hhas
    · rw [hsplit]
      have hkeyb : (a != key && b != key) = false := by
        rcases hkey with h | h <;> simp [h, bne]
      simp [List.getD, hkeyb]

/-- Witness for C3: on an issue with no current links, the well-formed
line `"ABC-1 ABC-3 Relates"` is created. -/
theorem C3_links_diff_witness :
    ("ABC-1", "ABC-3", "Relates") ∈ (linksClose "ABC-1" [] "ABC-1 ABC-3 Relates\n").snd :=
  (C3_links_diff "ABC-1" [] "ABC-1 ABC-3 Relates\n").2.2.1 "ABC-1 ABC-3 Relates"
    (by decide) (by decide) rfl "ABC-1" "ABC-3" "Relates" rfl (Or.inl rfl)

/-- A committed issue sitting at status `Open` of the example workflow,
used to instantiate the commit claims. -/
def sampleIssue : Issue :=
  { key := "ABC-1"
    fields := some
      { assignee := some "alice"
        reporter := some "bob"
        creator := some "bob"
        summary := "a summary"
        description := "a description"
        typeName := "Bug"
        typeID := "10001"
        statusName := some "Open"
        priorityName := some "Major"
        resolutionName := none
        progress := none
        projectKey := "ABC"
        components := ["core"]
        labels := ["red"]
        issueLinks := [⟨some "ABC-2", none, "Blocks", "30001"⟩] } }

/-- A tracker-state model for the C2 witness: the state is the list of
transitions applied so far, and the `Resolve` transition fails. -/
def execFailResolve (s : List String) (t : String) : Except JErr (List String) :=
  if t == "Resolve" then .error (.remote "boom") else .ok (s ++ [t])

/-- Witness for C2: writing `"Closed\n"` at status `Open` resolves the path
`["Start", "Resolve"]`; `Start` succeeds, `Resolve` fails, so exactly
`["Start"]` stays applied and the failure is surfaced. -/
theorem C2_status_commit_witness :
    statusClose (.ok sampleIssue) (.ok exampleGraph) execFailResolve [] "Closed\n"
      = (["Start"], some (.remote "boom")) :=
  (C2_status_commit (List String) sampleIssue _ "Open" exampleGraph "Closed\n"
      execFailResolve [] ["Start", "Resolve"] rfl rfl (by rfl)).2
    ["Start"] [] "Resolve" ["Start"] (.remote "boom") rfl (by rfl) (by rfl)

/-! ## New-issue commit (`IssueView.newWalk`, `ctl` command `commit`) -/

/-- The mutable draft state of an `IssueView` (`jira.go` lines 202–209):
issue key, project, new-issue flag, and the draft field map. -/
structure IssueViewState where
  project : String
  issueNo : String
  newIssue : Bool
  values : List (String × String)
deriving DecidableEq, Repr

/-- The project used by `commit`: the draft `project` value (newlines
removed), falling back to the view's project when the draft is empty
and the view has one. -/
def commitProject (iw : IssueViewState) : String :=
  let projectVal := stripNL (mapGet iw.values "project")
  if projectVal == "" && iw.project != "" then iw.project else projectVal

/-- The `commit` handler of the new-mode `ctl` file (`jira.go` lines
233–279). `createIssue` models the remote `CreateIssue` call, taking the
draft type, project, summary and description and returning the assigned
key. A non-new view fails with `AlreadyCommitted` before any remote
call; a failed creation leaves the state unchanged; a successful one
stores the key and computed project and clears `newIssue`. -/
def commitCmd (createIssue : String → String → String → String → Except JErr String)
    (iw : IssueViewState) : IssueViewState × Option JErr :=
  let issuetype := stripNL (mapGet iw.values "type")
  let summary := stripNL (mapGet iw.values "summary")
  let description := mapGet iw.values "description"
  let project := commitProject iw
  if !iw.newIssue then (iw, some .alreadyCommitted)
  else
    match createIssue issuetype project summary description with
    | .error e => (iw, some e)
    | .ok key => ({ iw with issueNo := key, project := project, newIssue := false }, none)

/-- C4: a successful `commit` on a new-mode view assigns the returned key
and permanently flips the view to non-new mode, after which every
further `commit` — under any behaviour of the remote — fails with
`AlreadyCommitted` and leaves the whole view state (key included)
unchanged; a failed `commit` surfaces the creation error and leaves the
view in new mode, so `commit` may be retried. -/
theorem C4_commit_once (createIssue : String → String → String → String → Except JErr String)
    (iw : IssueViewState) :
    (∀ key, iw.newIssue = true →
      createIssue (stripNL (mapGet iw.values "type")) (commitProject iw)
          (stripNL (mapGet iw.values "summary")) (mapGet iw.values "description")
        = .ok key →
      commitCmd createIssue iw
          = ({ iw with issueNo := key, project := commitProject iw, newIssue := false }, none)
        ∧ (commitCmd createIssue iw).1.issueNo = key
        ∧ (commitCmd createIssue iw).1.newIssue = false
        ∧ ∀ create2, commitCmd create2 (commitCmd createIssue iw).1
            = ((commitCmd createIssue iw).1, some .alreadyCommitted))
    ∧ (iw.newIssue = false →
        ∀ create2, commitCmd create2 iw = (iw, some .alreadyCommitted))
    ∧ (∀ e, iw.newIssue = true →
        createIssue (stripNL (mapGet iw.values "type")) (commitProject iw)
            (stripNL (mapGet iw.values "summary")) (mapGet iw.values "description")
          = .error e →
        commitCmd createIssue iw = (iw, some e)) := by
  have hnotnew : ∀ (jv : IssueViewState), jv.newIssue = false →
      ∀ create2, commitCmd create2 jv = (jv, some .alreadyCommitted) := by
    intro jv hjv create2
    unfold commitCmd
    rw [hjv]
    rfl
  refine ⟨?_, hnotnew iw, ?_⟩
  · intro key hnew hok
    have hmain : commitCmd createIssue iw
        = ({ iw with issueNo := key, project := commitProject iw, newIssue := false }, none) := by
      simp only [commitCmd, hnew, hok, Bool.not_true, Bool.false_eq_true, if_false]
    refine ⟨hmain, by rw [hmain], by rw [hmain], ?_⟩
    intro create2
    rw [hmain]
    exact hnotnew _ rfl create2
  · intro e hnew herr
    simp only [commitCmd, hnew, herr, Bool.not_true, Bool.false_eq_true, if_false]

/-- A fresh new-mode draft view, as produced by walking `issues/new` under
project `ABC` and writing a type and summary. -/
def sampleNewView : IssueViewState :=
  { project := "ABC", issueNo := "", newIssue := true
    values := [("type", "Bug\n"), ("summary", "crash\n"), ("description", "it crashes\n")] }

/-- Witness for C4: the first `commit` on the sample draft succeeds and
assigns `ABC-7`; a second `commit` — even one whose remote would return a
different key — fails with `AlreadyCommitted` and changes nothing. -/
theorem C4_commit_once_witness :
    (commitCmd (fun _ _ _ _ => .ok "ABC-7") sampleNewView).1.issueNo = "ABC-7"
    ∧ (commitCmd (fun _ _ _ _ => .ok "ABC-7") sampleNewView).1.newIssue = false
    ∧ commitCmd (fun _ _ _ _ => .ok "ABC-9")
          (commitCmd (fun _ _ _ _ => .ok "ABC-7") sampleNewView).1
        = ((commitCmd (fun _ _ _ _ => .ok "ABC-7") sampleNewView).1,
           some .alreadyCommitted) :=
  have h := (C4_commit_once (fun _ _ _ _ => .ok "ABC-7") sampleNewView).1 "ABC-7" rfl rfl
  ⟨h.2.1, h.2.2.1, h.2.2.2 (fun _ _ _ _ => .ok "ABC-9")⟩

/-! ## Search views (`SearchView.search/Walk/List`) and the root view

Remote calls are parameters bundled in `Env` and every embedded
operation also returns the list of remote calls it performed, so that
"without re-running the query" is a provable statement. -/

/-- Modelled from the spec: `StringExistsInSets` (helper not under `src/`)
reports whether the name occurs in any of the given name sets. -/
def StringExistsInSets (s : String) (sets : List (List String)) : Bool :=
  sets.any fun set => set.contains s

/-- The mutable state of a `SearchView` (`jira.go` lines 626–630). -/
structure SearchViewState where
  query : String
  results : List String
deriving DecidableEq, Repr

/-- A remote tracker call, for call logs. -/
inductive RCall where
  | keysForSearch (query : String) (limit : Int)
  | getIssue (key : String)
deriving DecidableEq, Repr

/-- The remote operations the search views use, plus the client's
`maxlisting` setting. -/
structure Env where
  getKeysForSearch : String → Int → Except JErr (List String)
  getIssue : String → Except JErr Issue
  maxlisting : Int

/-- `SearchView.search` (`jira.go` lines 632–642): re-run the stored query
and replace `results` wholesale. -/
def searchRun (env : Env) (sv : SearchViewState) :
    Option JErr × SearchViewState × List RCall :=
  match env.getKeysForSearch sv.query env.maxlisting with
  | .error e => (some e, sv, [.keysForSearch sv.query env.maxlisting])
  | .ok keys => (none, { sv with results := keys }, [.keysForSearch sv.query env.maxlisting])

/-- `SearchView.Walk` (`jira.go` lines 644–668): resolve the name against
the last computed result set only; names outside it fail with
`ErrNoSuchFile` before any remote call, names inside it are fetched with
`GetIssue` and wrapped in an issue directory. -/
def searchWalk (env : Env) (sv : SearchViewState) (file : String) :
    Except JErr (Option WalkNode) × SearchViewState × List RCall :=
  if !StringExistsInSets file [sv.results] then (.error .noSuchFile, sv, [])
  else
    match env.getIssue file with
    | .error e => (.error e, sv, [.getIssue file])
    | .ok issue =>
      match issue.fields with
      | none => (.error .nilFields, sv, [.getIssue file])
      | some _ =>
          (.ok (some (.dir file (0o555 ||| DMDIR) "jira" "jira")), sv, [.getIssue file])

/-- `SearchView.List` (`jira.go` lines 670–680): re-run the query, then
list the (fresh) result keys as directories. -/
def searchList (env : Env) (sv : SearchViewState) :
    Except JErr (List QStat) × SearchViewState × List RCall :=
  match searchRun env sv with
  | (some e, sv', log) => (.error e, sv', log)
  | (none, sv', log) =>
      (.ok (StringsToStats sv'.results (0o555 ||| DMDIR) "jira" "jira"), sv', log)

/-- C5: `List` re-runs the stored query and replaces the result set
wholesale — two consecutive `List` calls against different backing data
(`env`, then `env2`) each reflect their own backing data — whereas `Walk`
never issues a search query (its call log contains no `keysForSearch`
call and the state is unchanged), resolves names in the last computed
result set to issue directories, and fails names outside it with
`ErrNoSuchFile` before any remote call at all. -/
theorem C5_search_live_list_cached_walk (env env2 : Env) (sv : SearchViewState)
    (file : String) :
    (∀ keys, env.getKeysForSearch sv.query env.maxlisting = .ok keys →
      (searchList env sv).2.1.results = keys
      ∧ (searchList env sv).1 = .ok (StringsToStats keys (0o555 ||| DMDIR) "jira" "jira")
      ∧ ∀ keys2, env2.getKeysForSearch sv.query env2.maxlisting = .ok keys2 →
          (searchList env2 (searchList env sv).2.1).2.1.results = keys2)
    ∧ (searchWalk env sv file).2.1 = sv
    ∧ (∀ c ∈ (searchWalk env sv file).2.2, ∀ q n, c ≠ .keysForSearch q n)
    ∧ (sv.results.contains file = false →
        searchWalk env sv file = (.error .noSuchFile, sv, []))
    ∧ (sv.results.contains file = true →
        ∀ issue flds, env.getIssue file = .ok issue → issue.fields = some flds →
          (searchWalk env sv file).1
            = .ok (some (.dir file (0o555 ||| DMDIR) "jira" "jira"))) := by
  have hlist : ∀ (e : Env) (s : SearchViewState) (keys : List String),
      e.getKeysForSearch s.query e.maxlisting = .ok keys →
      searchList e s = (.ok (StringsToStats keys (0o555 ||| DMDIR) "jira" "jira"),
        { s with results := keys }, [.keysForSearch s.query e.maxlisting]) := by
    intro e s keys hkeys
    unfold searchList searchRun
    rw [hkeys]
  refine ⟨?_, ?_, ?_, ?_, ?_⟩
  · intro keys hkeys
    rw [hlist env sv keys hkeys]
    refine ⟨rfl, rfl, ?_⟩
    intro keys2 hkeys2
    rw [hlist env2 { sv with results := keys } keys2 hkeys2]
  · unfold searchWalk
    split_ifs
    · rfl
    · cases env.getIssue file with
      | error e => rfl
      | ok issue =>
          obtain ⟨k, fl⟩ := issue
          cases fl <;> rfl
  · unfold searchWalk
    split_ifs
    · intro c hc
      simp at hc
    · cases env.getIssue file with
      | error e =>
          intro c hc q n
          simp only [List.mem_singleton] at hc
          subst hc
          simp
      | ok issue =>
          obtain ⟨k, fl⟩ := issue
          cases fl <;>
            { intro c hc q n
              simp only [List.mem_singleton] at hc
              subst hc
              simp }
  · intro hout
    have hsets : StringExistsInSets file [sv.results] = false := by
      simpa [StringExistsInSets] using hout
    unfold searchWalk
    rw [hsets]
    rfl
  · intro hin issue flds hissue hflds
    have hsets : StringExistsInSets file [sv.results] = true := by
      simpa [StringExistsInSets] using hin
    simp only [searchWalk, hsets, Bool.not_true, Bool.false_eq_true, if_false, hissue, hflds]

/-- Witness for C5: a one-result environment. The first listing sees
`["ABC-1"]`, the second (after the backing data changed to `["ABC-2"]`)
sees `["ABC-2"]`; walking `ABC-1` in the first result set yields an
issue directory, and walking a name outside the set is `NoSuchFile`. -/
theorem C5_search_live_list_cached_walk_witness :
    (searchList ⟨fun _ _ => .ok ["ABC-1"], fun k => .ok ⟨k, sampleIssue.fields⟩, 64⟩
        ⟨"q", []⟩).2.1.results = ["ABC-1"]
    ∧ (searchList ⟨fun _ _ => .ok ["ABC-2"], fun k => .ok ⟨k, sampleIssue.fields⟩, 64⟩
        (searchList ⟨fun _ _ => .ok ["ABC-1"], fun k => .ok ⟨k, sampleIssue.fields⟩, 64⟩
          ⟨"q", []⟩).2.1).2.1.results = ["ABC-2"]
    ∧ (searchWalk ⟨fun _ _ => .ok ["ABC-1"], fun k => .ok ⟨k, sampleIssue.fields⟩, 64⟩
        ⟨"q", ["ABC-1"]⟩ "ABC-1").1
        = .ok (some (.dir "ABC-1" (0o555 ||| DMDIR) "jira" "jira"))
    ∧ searchWalk ⟨fun _ _ => .ok ["ABC-1"], fun k => .ok ⟨k, sampleIssue.fields⟩, 64⟩
        ⟨"q", ["ABC-1"]⟩ "ABC-9"
        = (.error .noSuchFile, ⟨"q", ["ABC-1"]⟩, []) :=
  have henv1 := C5_search_live_list_cached_walk
    ⟨fun _ _ => .ok ["ABC-1"], fun k => .ok ⟨k, sampleIssue.fields⟩, 64⟩
    ⟨fun _ _ => .ok ["ABC-2"], fun k => .ok ⟨k, sampleIssue.fields⟩, 64⟩
    ⟨"q", []⟩ "ABC-1"
  have henv2 := C5_search_live_list_cached_walk
    ⟨fun _ _ => .ok ["ABC-1"], fun k => .ok ⟨k, sampleIssue.fields⟩, 64⟩
    ⟨fun _ _ => .ok ["ABC-1"], fun k => .ok ⟨k, sampleIssue.fields⟩, 64⟩
    ⟨"q", ["ABC-1"]⟩ "ABC-1"
  have henv3 := C5_search_live_list_cached_walk
    ⟨fun _ _ => .ok ["ABC-1"], fun k => .ok ⟨k, sampleIssue.fields⟩, 64⟩
    ⟨fun _ _ => .ok ["ABC-1"], fun k => .ok ⟨k, sampleIssue.fields⟩, 64⟩
    ⟨"q", ["ABC-1"]⟩ "ABC-9"
  ⟨((henv1.1 ["ABC-1"] rfl).1),
   ((henv1.1 ["ABC-1"] rfl).2.2 ["ABC-2"] rfl),
   (henv2.2.2.2.2 rfl ⟨"ABC-1", sampleIssue.fields⟩ _ rfl rfl),
   (henv3.2.2.2.1 rfl)⟩

/-! ## Root view (`JiraView.Walk/Remove`) -/

/-- The root view's mutable state: the table of named searches
(`jira.go` lines 927–930). -/
structure JiraViewState where
  searches : List (String × SearchViewState)
deriving DecidableEq, Repr

/-- The shape of `JiraView.Walk` (`jira.go` lines 932–1077) as far as
name resolution goes: the five structural names resolve to the `ctl`
command file, the `projects`/`issues` directories and the
`help`/`structure` text files; any other name resolves to the named
search of that name, or to not-found (`nil, nil`) when none exists. -/
def jiraViewWalk (jw : JiraViewState) (file : String) : Option WalkNode :=
  if file == "ctl" then
    some (.cmdFile "ctl" 0o777 "jira" "jira" ["search", "pass-login", "set"])
  else if file == "projects" then some (.dir "projects" (0o555 ||| DMDIR) "jira" "jira")
  else if file == "issues" then some (.dir "issues" (0o555 ||| DMDIR) "jira" "jira")
  else if file == "structure" then some (.file "structure" 0o555 "jira" "jira" false true)
  else if file == "help" then some (.file "help" 0o555 "jira" "jira" false true)
  else if mapHas jw.searches file then some (.dir file (0o555 ||| DMDIR) "jira" "jira")
  else none

/-- `JiraView.Remove` (`jira.go` lines 1098–1115): the five structural
names fail with `PermissionDenied`; the name of an existing search is
deleted from the table; any other name fails with `ErrNoSuchFile`. -/
def jiraViewRemove (jw : JiraViewState) (file : String) : JiraViewState × Option JErr :=
  if file == "ctl" || file == "projects" || file == "issues"
      || file == "structure" || file == "help" then
    (jw, some .permissionDenied)
  else if mapHas jw.searches file then (⟨mapDel jw.searches file⟩, none)
  else (jw, some .noSuchFile)

theorem mapHas_mapDel_self {β : Type} (m : List (String × β)) (k : String) :
    mapHas (mapDel m k) k = false := by
  simp only [mapHas, mapDel]
  cases hv : (List.filter (fun p => p.fst != k) m).any fun p => p.fst == k
  · rfl
  · rcases List.any_eq_true.mp hv with ⟨p, hp, hpk⟩
    have := (List.mem_filter.mp hp).2
    rw [bne] at this
    rw [hpk] at this
    exact absurd this (by simp)

/-- C6: on the root view, `Remove` of any of `ctl`, `projects`, `issues`,
`help`, `structure` always fails with `PermissionDenied` (state
unchanged); `Remove` of the name of an existing named search deletes it,
after which `Walk` of that name returns not-found; `Remove` of any other
name fails with `ErrNoSuchFile` (state unchanged). -/
theorem C6_root_remove (jw : JiraViewState) (file : String) :
    (∀ s ∈ ["ctl", "projects", "issues", "help", "structure"],
        jiraViewRemove jw s = (jw, some .permissionDenied))
    ∧ (file ∉ ["ctl", "projects", "issues", "help", "structure"] →
        mapHas jw.searches file = true →
          jiraViewRemove jw file = (⟨mapDel jw.searches file⟩, none)
          ∧ jiraViewWalk (jiraViewRemove jw file).1 file = none)
    ∧ (file ∉ ["ctl", "projects", "issues", "help", "structure"] →
        mapHas jw.searches file = false →
          jiraViewRemove jw file = (jw, some .noSuchFile)) := by
  have hnotfixed : ∀ g : String, g ∉ ["ctl", "projects", "issues", "help", "structure"] →
      (g == "ctl" || g == "projects" || g == "issues"
        || g == "structure" || g == "help") = false := by
    intro g hg
    simp only [List.mem_cons, List.not_mem_nil, or_false, not_or] at hg
    simp [beq_eq_false_iff_ne, hg.1, hg.2.1, hg.2.2.1, hg.2.2.2]
  refine ⟨?_, ?_, ?_⟩
  · intro s hs
    simp only [List.mem_cons, List.not_mem_nil, or_false] at hs
    rcases hs with rfl | rfl | rfl | rfl | rfl <;> rfl
  · intro hfile hhas
    have hrem : jiraViewRemove jw file = (⟨mapDel jw.searches file⟩, none) := by
      unfold jiraViewRemove
      rw [hnotfixed file hfile]
      simp only [Bool.false_eq_true, if_false]
      rw [if_pos hhas]
    refine ⟨hrem, ?_⟩
    rw [hrem]
    unfold jiraViewWalk
    simp only [List.mem_cons, List.not_mem_nil, or_false, not_or] at hfile
    simp only [beq_eq_false_iff_ne.mpr hfile.1, beq_eq_false_iff_ne.mpr hfile.2.1,
      beq_eq_false_iff_ne.mpr hfile.2.2.1, beq_eq_false_iff_ne.mpr hfile.2.2.2.2,
      beq_eq_false_iff_ne.mpr hfile.2.2.2.1, Bool.false_eq_true, if_false]
    rw [if_neg]
    rw [mapHas_mapDel_self]
    simp
  · intro hfile hhas
    unfold jiraViewRemove
    rw [hnotfixed file hfile]
    simp only [Bool.false_eq_true, if_false]
    rw [if_neg (by rw [hhas]; simp)]

/-- Witness for C6: with one named search `mine`, removing `projects` is
`PermissionDenied`, removing `mine` deletes it and a subsequent walk of
`mine` is not-found, and removing `other` is `NoSuchFile`. -/
theorem C6_root_remove_witness :
    jiraViewRemove ⟨[("mine", ⟨"q", []⟩)]⟩ "projects"
      = (⟨[("mine", ⟨"q", []⟩)]⟩, some .permissionDenied)
    ∧ jiraViewRemove ⟨[("mine", ⟨"q", []⟩)]⟩ "mine" = (⟨[]⟩, none)
    ∧ jiraViewWalk (jiraViewRemove ⟨[("mine", ⟨"q", []⟩)]⟩ "mine").1 "mine" = none
    ∧ jiraViewRemove ⟨[("mine", ⟨"q", []⟩)]⟩ "other"
      = (⟨[("mine", ⟨"q", []⟩)]⟩, some .noSuchFile) :=
  have h := C6_root_remove ⟨[("mine", ⟨"q", []⟩)]⟩ "mine"
  have h2 := C6_root_remove ⟨[("mine", ⟨"q", []⟩)]⟩ "other"
  ⟨h.1 "projects" (by decide), (h.2.1 (by decide) rfl).1,
   (h.2.1 (by decide) rfl).2, h2.2.2 (by decide) rfl⟩

/-! ## Normal-mode issue files: walk metadata and commit content

`IssueView.normalWalk` (`jira.go` lines 319–593) is embedded in two
parts: `normalWalkNode` captures the node each name resolves to (mode,
owner, group, writability and the close-saver's `forceTrunc` flag;
synthetic contents are not modelled, no claim depends on them), and the
`fieldCloseCommit`/`transitionCloseCommit` functions capture what the
`onClose` handler sends to the tracker for the simple field branches
(the `status` and `links` branches are `statusClose` and `linksClose`
above). -/

/-- `IssueView.normalFiles` (files part). -/
def normalFiles : List String :=
  ["assignee", "creator", "ctl", "description", "type", "key", "reporter", "status",
   "summary", "labels", "transition", "priority", "resolution", "raw", "progress",
   "links", "components", "project"]

/-- `IssueView.normalFiles` (dirs part). -/
def normalDirs : List String := ["comments", "worklog"]

/-- `IssueView.newFiles` (files part; the dirs part is empty). -/
def newFiles : List String := ["ctl", "description", "type", "summary", "project"]

/-- The cases of the `normalWalk` switch that clear `writable`
(`progress`, `project`, `key`); every other field keeps the initial
`writable := true`. -/
def normalWritable (file : String) : Bool :=
  !(file == "progress" || file == "project" || file == "key")

/-- The cases of the `normalWalk` switch that clear `forceTrunc`
(`summary`, `description`, `components`, `labels`, `links`); every other
field keeps the initial `forceTrunc := true`. -/
def normalForceTrunc (file : String) : Bool :=
  !(file == "summary" || file == "description" || file == "components"
    || file == "labels" || file == "links")

/-- The synthetic-file node `normalWalk` builds after the switch: mode
`0777` and a close-saver when writable, plain `0555` file otherwise. -/
def normalFieldNode (file : String) : WalkNode :=
  let writable := normalWritable file
  let perm : Nat := if writable then 0o777 else 0o555
  .file file perm "jira" "jira" writable (normalForceTrunc file)

/-- `IssueView.normalWalk` (`jira.go` lines 319–465): unknown names are
not-found before any remote call; `GetIssue` failure aborts; `comments`
and `worklog` are `0555` directories, `ctl` a command file accepting
`delete`, `transition` additionally requires `GetTransitionsForIssue`
to succeed; every other name yields the per-field synthetic file. -/
def normalWalkNode (getIssueRes : Except JErr Issue)
    (getTransRes : Except JErr (List String)) (file : String) :
    Except JErr (Option WalkNode) :=
  if !StringExistsInSets file [normalFiles, normalDirs] then .ok none
  else
    match getIssueRes with
    | .error e => .error e
    | .ok _ =>
      if file == "comments" || file == "worklog" then
        .ok (some (.dir file (0o555 ||| DMDIR) "jira" "jira"))
      else if file == "ctl" then
        .ok (some (.cmdFile "ctl" 0o777 "jira" "jira" ["delete"]))
      else if file == "transition" then
        match getTransRes with
        | .error e => .error e
        | .ok _ => .ok (some (normalFieldNode file))
      else .ok (some (normalFieldNode file))

/-- `CommentView.Walk` (`jira.go` lines 94–147): only
`author`/`comment`/`updated`/`created` exist (checked before the remote
call); `comment` is the one writable file and the one whose close-saver
has `forceTrunc = false`. -/
def commentViewWalkNode (getCommentRes : Except JErr Unit) (file : String) :
    Except JErr (Option WalkNode) :=
  if !StringExistsInSets file [["author", "comment", "updated", "created"]] then .ok none
  else
    match getCommentRes with
    | .error e => .error e
    | .ok _ =>
      let writable := file == "comment"
      let forceTrunc := !(file == "comment")
      let perm : Nat := if writable then 0o777 else 0o555
      .ok (some (.file file perm "jira" "jira" writable forceTrunc))

/-- `IssueView.List` (`jira.go` lines 607–624): all files listed with mode
`0777` and all dirs with `0777|DMDIR`, regardless of the per-walk modes. -/
def issueViewList (isNew : Bool) : List QStat :=
  let files := if isNew then newFiles else normalFiles
  let dirs : List String := if isNew then [] else normalDirs
  StringsToStats files 0o777 "jira" "jira"
    ++ StringsToStats dirs (0o777 ||| DMDIR) "jira" "jira"

/-- The mode word of a walk node. -/
def WalkNode.mode : WalkNode → Nat
  | .dir _ m _ _ => m
  | .cmdFile _ m _ _ _ => m
  | .file _ m _ _ _ _ => m

/-- The owner of a walk node. -/
def WalkNode.uid : WalkNode → String
  | .dir _ _ u _ => u
  | .cmdFile _ _ u _ _ => u
  | .file _ _ u _ _ _ => u

/-- The group of a walk node. -/
def WalkNode.gid : WalkNode → String
  | .dir _ _ _ g => g
  | .cmdFile _ _ _ g _ => g
  | .file _ _ _ g _ _ => g

/-- A remote write as dispatched by the `onClose` handler. -/
inductive FieldCommit where
  | setIssueRaw (key : String) (content : String) : FieldCommit
  | transitionIssue (key : String) (name : String) : FieldCommit
  | setField (key field value : String) : FieldCommit
deriving DecidableEq, Repr

/-- The `transition` branch of `onClose` (`jira.go` lines 520–526):
`TransitionIssue` with every newline removed from the buffer. -/
def transitionCloseCommit (issueKey content : String) : FieldCommit :=
  .transitionIssue issueKey (stripNL content)

/-- The default branch of `onClose` (`jira.go` lines 573–582):
`SetFieldInIssue` with the buffer as the value, with every newline
removed unless the field is `description`, `labels` or `components`. -/
def fieldCloseCommit (issueKey file content : String) : FieldCommit :=
  if file == "description" || file == "labels" || file == "components" then
    .setField issueKey file content
  else .setField issueKey file (stripNL content)

/-- Following the claim's words only (not the source): remove the
trailing newline characters of a string, keeping interior ones. -/
def specStripTrailingNewlines (s : String) : String :=
  ⟨(s.data.reverse.dropWhile fun c => c = '\n').reverse⟩

/-- Following the claim's words only (not the source): the default
`onClose` branch as the claim describes it, stripping only trailing
newlines. -/
def fieldCloseCommitSpecC8 (issueKey file content : String) : FieldCommit :=
  if file == "description" || file == "labels" || file == "components" then
    .setField issueKey file content
  else .setField issueKey file (specStripTrailingNewlines content)

theorem stripNL_idem (s : String) : stripNL (stripNL s) = stripNL s := by
  unfold stripNL
  congr 1
  rw [List.filter_filter]
  exact List.filter_congr (by intro x _; simp)

/-- C7: the close-saver's `forceTrunc` flag is per-field: `true` for the
single-line scalar `assignee` (first write of a session wipes prior
content) and `false` for the multi-line fields `description`, `labels`,
`components`, `links` and a comment's `comment` file (incremental edits
preserve prior content). -/
theorem C7_force_trunc (issue : Issue) (trs : Except JErr (List String)) :
    normalWalkNode (.ok issue) trs "assignee"
      = .ok (some (.file "assignee" 0o777 "jira" "jira" true true))
    ∧ normalWalkNode (.ok issue) trs "description"
      = .ok (some (.file "description" 0o777 "jira" "jira" true false))
    ∧ normalWalkNode (.ok issue) trs "labels"
      = .ok (some (.file "labels" 0o777 "jira" "jira" true false))
    ∧ normalWalkNode (.ok issue) trs "components"
      = .ok (some (.file "components" 0o777 "jira" "jira" true false))
    ∧ normalWalkNode (.ok issue) trs "links"
      = .ok (some (.file "links" 0o777 "jira" "jira" true false))
    ∧ commentViewWalkNode (.ok ()) "comment"
      = .ok (some (.file "comment" 0o777 "jira" "jira" true false)) :=
  ⟨rfl, rfl, rfl, rfl, rfl, rfl⟩

/-- C8 counterexample: the buffer `"a\nb\n"` committed to `assignee` is
sent as `"ab"` — the interior newline is removed too — while stripping
only trailing newlines (as the claim states) would send `"a\nb"`. -/
theorem C8_trailing_strip_counterexample :
    fieldCloseCommit "ABC-1" "assignee" "a\nb\n" = .setField "ABC-1" "assignee" "ab"
    ∧ fieldCloseCommitSpecC8 "ABC-1" "assignee" "a\nb\n"
        = .setField "ABC-1" "assignee" "a\nb"
    ∧ ("ab" : String) ≠ "a\nb" :=
  ⟨rfl, rfl, by decide⟩

/-- C8 (amended: "trailing newline(s) are stripped" → "all newline
characters, interior ones included, are removed"): status, transition
and scalar-field commits interpret the buffer with every newline
removed (the status interpretation depends only on the newline-free
buffer), while `description`, `labels` and `components` are committed
verbatim. -/
theorem C8_commit_newline_stripping (key file content : String) :
    (file ≠ "description" → file ≠ "labels" → file ≠ "components" →
      fieldCloseCommit key file content = .setField key file (stripNL content))
    ∧ (file = "description" ∨ file = "labels" ∨ file = "components" →
      fieldCloseCommit key file content = .setField key file content)
    ∧ transitionCloseCommit key content = .transitionIssue key (stripNL content)
    ∧ (∀ (σ : Type) (gi : Except JErr Issue) (bw : Except JErr WorkflowGraph)
        (exec : σ → String → Except JErr σ) (s0 : σ),
        statusClose gi bw exec s0 content = statusClose gi bw exec s0 (stripNL content))
    ∧ (∀ c ∈ (stripNL content).data, c ≠ '\n') := by
  refine ⟨?_, ?_, rfl, ?_, ?_⟩
  · intro h1 h2 h3
    unfold fieldCloseCommit
    rw [if_neg (by simp [h1, h2, h3])]
  · intro h
    rcases h with rfl | rfl | rfl <;> rfl
  · intro σ gi bw exec s0
    simp only [statusClose, stripNL_idem]
  · intro c hc
    unfold stripNL at hc
    have := (List.mem_filter.mp hc).2
    simpa using this

/-- Witness for C8: a scalar field (`assignee`) commit goes through the
stripping branch, a `description` commit through the verbatim branch. -/
theorem C8_commit_newline_stripping_witness :
    fieldCloseCommit "ABC-1" "assignee" "alice\n"
      = .setField "ABC-1" "assignee" (stripNL "alice\n")
    ∧ fieldCloseCommit "ABC-1" "description" "a\nb\n"
      = .setField "ABC-1" "description" "a\nb\n" :=
  ⟨(C8_commit_newline_stripping "ABC-1" "assignee" "alice\n").1
      (by decide) (by decide) (by decide),
   (C8_commit_newline_stripping "ABC-1" "description" "a\nb\n").2.1 (Or.inl rfl)⟩

/-! ## The remaining listings and walk nodes of the view hierarchy

Embedded down to the stat/node metadata they produce (names, modes,
owner, group); remote results (worklog IDs, comment IDs, project keys,
issue keys, search names) are parameters. Together with the views
embedded above this covers every `List` function and every node shape a
`Walk` can hand out. -/

/-- Go `strings.ToUpper`, modelled for ASCII (the only difference beyond
ASCII is case mapping of non-ASCII letters, which none of the uses —
dash counting, digit tests, key comparison — depends on). -/
def goToUpper (s : String) : String :=
  ⟨s.data.map Char.toUpper⟩

/-- `WorklogView.List` (`jira.go` lines 47–49). -/
def worklogViewList : List QStat :=
  StringsToStats ["comment", "author", "time", "started"] 0o555 "jira" "jira"

/-- `IssueWorklogView.List` (`jira.go` lines 75–87): one directory per
worklog ID. -/
def issueWorklogViewList (ids : List String) : List QStat :=
  StringsToStats ids (0o555 ||| DMDIR) "jira" "jira"

/-- `CommentView.List` (`jira.go` lines 149–153). -/
def commentViewList : List QStat :=
  StringsToStats ["comment"] 0o777 "jira" "jira"
    ++ StringsToStats ["author", "updated", "created"] 0o555 "jira" "jira"

/-- `IssueCommentView.List` (`jira.go` lines 181–191): one directory per
comment ID plus the `comment` create-file. -/
def issueCommentViewList (ids : List String) : List QStat :=
  StringsToStats ids (0o777 ||| DMDIR) "jira" "jira"
    ++ StringsToStats ["comment"] 0o777 "jira" "jira"

/-- `ProjectView.List` (`jira.go` lines 775–777). -/
def projectViewList : List QStat :=
  StringsToStats ["issues", "issuetypes", "components", "raw"] (0o555 ||| DMDIR)
    "jira" "jira"

/-- `AllProjectsView.List` (`jira.go` lines 800–813). -/
def allProjectsViewList (keys : List String) : List QStat :=
  StringsToStats keys (0o555 ||| DMDIR) "jira" "jira"

/-- `ProjectIssuesView.List` (`jira.go` lines 711–720). -/
def projectIssuesViewList (keys : List String) : List QStat :=
  StringsToStats (keys ++ ["new"]) (0o555 ||| DMDIR) "jira" "jira"

/-- `AllIssuesView.List` (`jira.go` lines 914–925): issue keys plus `new`
as `0555` directories, and `help`/`structure` with the literal mode
`055` — no owner bits, read-execute for group and others. -/
def allIssuesViewList (keys : List String) : List QStat :=
  StringsToStats (keys ++ ["new"]) (0o555 ||| DMDIR) "jira" "jira"
    ++ StringsToStats ["help", "structure"] 0o55 "jira" "jira"

/-- `JiraView.List` (`jira.go` lines 1079–1096). -/
def jiraViewList (searchNames : List String) : List QStat :=
  StringsToStats ["projects", "issues"] (0o555 ||| DMDIR) "jira" "jira"
    ++ StringsToStats ["ctl"] 0o777 "jira" "jira"
    ++ StringsToStats ["help", "structure"] 0o555 "jira" "jira"
    ++ StringsToStats searchNames (0o777 ||| DMDIR) "jira" "jira"

/-- `IssueView.newWalk` (`jira.go` lines 224–306) at the node level: names
outside `newFiles` are not-found, `ctl` is the `commit` command file,
every other draft field a `0777` close-saver file (whose `forceTrunc`
keeps its zero value `false`). No remote call is involved. -/
def newWalkNode (file : String) : Option WalkNode :=
  if !StringExistsInSets file [newFiles] then none
  else if file == "ctl" then some (.cmdFile "ctl" 0o777 "jira" "jira" ["commit"])
  else some (.file file 0o777 "jira" "jira" true false)

/-- `WorklogView.Walk` (`jira.go` lines 23–45): the worklog is fetched
first; the four fields are `0555` read-only files, other names
not-found. -/
def worklogViewWalkNode (getWorklog : Except JErr Unit) (file : String) :
    Except JErr (Option WalkNode) :=
  match getWorklog with
  | .error e => .error e
  | .ok _ =>
    if file == "comment" || file == "author" || file == "time" || file == "started" then
      .ok (some (.file file 0o555 "jira" "jira" false true))
    else .ok none

/-- `IssueWorklogView.Walk` (`jira.go` lines 55–73): a fetched worklog ID
resolves to a `0555` directory, other names are not-found. -/
def issueWorklogViewWalkNode (getWorklog : Except JErr (List String)) (file : String) :
    Except JErr (Option WalkNode) :=
  match getWorklog with
  | .error e => .error e
  | .ok ids =>
    if ids.contains file then .ok (some (.dir file (0o555 ||| DMDIR) "jira" "jira"))
    else .ok none

/-- `IssueCommentView.Walk` (`jira.go` lines 159–178): `comment` is the
`0777` create-file (a close-saver with the zero-value `forceTrunc`); any
other name is fetched as a comment ID and wrapped as a `0777`
directory. -/
def issueCommentViewWalkNode (getComment : String → Except JErr Unit) (file : String) :
    Except JErr (Option WalkNode) :=
  if file == "comment" then .ok (some (.file "comment" 0o777 "jira" "jira" true false))
  else
    match getComment file with
    | .error e => .error e
    | .ok _ => .ok (some (.dir file (0o777 ||| DMDIR) "jira" "jira"))

/-- `ProjectView.Walk` (`jira.go` lines 726–773): `issues` is a `0555`
directory; `components`, `issuetypes` and `raw` are `0555` read-only
files built from the fetched project; other names are not-found. -/
def projectViewWalkNode (getProject : Except JErr Unit) (file : String) :
    Except JErr (Option WalkNode) :=
  if file == "issues" then .ok (some (.dir "issues" (0o555 ||| DMDIR) "jira" "jira"))
  else if file == "components" || file == "issuetypes" || file == "raw" then
    match getProject with
    | .error e => .error e
    | .ok _ => .ok (some (.file file 0o555 "jira" "jira" false true))
  else .ok none

/-- `AllProjectsView.Walk` (`jira.go` lines 781–798): the uppercased name
resolves to a `0555` project directory when it is among the fetched
project keys, else not-found. -/
def allProjectsViewWalkNode (getProjects : Except JErr (List String))
    (projectName : String) : Except JErr (Option WalkNode) :=
  match getProjects with
  | .error e => .error e
  | .ok keys =>
    if keys.contains (goToUpper projectName) then
      .ok (some (.dir (goToUpper projectName) (0o555 ||| DMDIR) "jira" "jira"))
    else .ok none

/-- Go `strconv.ParseUint(s, 10, 64)`: digits only (no sign, no
underscores in base 10), nonempty, value below `2^64`; anything else is
an error (`none`). -/
def goParseUint10 (s : String) : Option Nat :=
  if s.data.isEmpty then none
  else if s.data.all (fun c => c.isDigit) then
    let v := s.data.foldl (fun acc c => acc * 10 + (c.toNat - 48)) 0
    if v < 2 ^ 64 then some v else none
  else none

/-- `ProjectIssuesView.Walk` (`jira.go` lines 686–709): `new` yields the
draft view; any other name must parse as an unsigned decimal before
`GetIssue` is called on `PROJECT-NUMBER`; a non-number is not-found with
no remote call. -/
def projectIssuesWalk (getIssue : String → Except JErr Issue)
    (project issueNo : String) : Except JErr (Option WalkNode) × List RCall :=
  if issueNo == "new" then
    (.ok (some (.dir issueNo (0o555 ||| DMDIR) "jira" "jira")), [])
  else
    match goParseUint10 issueNo with
    | none => (.ok none, [])
    | some _ =>
      let issueKey := project ++ "-" ++ issueNo
      match getIssue issueKey with
      | .error e => (.error e, [.getIssue issueKey])
      | .ok _ =>
          (.ok (some (.dir issueNo (0o555 ||| DMDIR) "jira" "jira")), [.getIssue issueKey])

/-- `AllIssuesView.Walk` (`jira.go` lines 817–912): `new`, `help` and
`structure` are special; any other name, uppercased and split on `-`,
must give exactly two pieces with a numeric second piece before
`GetIssue` is called; otherwise not-found with no remote call. -/
def allIssuesWalk (getIssue : String → Except JErr Issue) (issueKey : String) :
    Except JErr (Option WalkNode) × List RCall :=
  if issueKey == "new" then
    (.ok (some (.dir issueKey (0o555 ||| DMDIR) "jira" "jira")), [])
  else if issueKey == "help" then
    (.ok (some (.file issueKey 0o555 "jira" "jira" false true)), [])
  else if issueKey == "structure" then
    (.ok (some (.file issueKey 0o555 "jira" "jira" false true)), [])
  else
    let s := splitOnChar '-' (goToUpper issueKey)
    if s.length != 2 then (.ok none, [])
    else
      match goParseUint10 (s.getD 1 "") with
      | none => (.ok none, [])
      | some _ =>
        match getIssue issueKey with
        | .error e => (.error e, [.getIssue issueKey])
        | .ok issue =>
          match issue.fields with
          | none => (.error .noFields, [.getIssue issueKey])
          | some _ =>
              (.ok (some (.dir issueKey (0o555 ||| DMDIR) "jira" "jira")),
               [.getIssue issueKey])

/-- The mode words the spec calls per-field read-only (`0555`) or
read-write (`0777`), as plain entries or directories. -/
def modeROorRW (m : Nat) : Bool :=
  m == 0o555 || m == 0o777 || m == (0o555 ||| DMDIR) || m == (0o777 ||| DMDIR)

theorem mem_StringsToStats {strs : List String} {mode : Nat} {user group : String}
    {st : QStat} (h : st ∈ StringsToStats strs mode user group) :
    st.mode = mode ∧ st.uid = user ∧ st.gid = group := by
  rcases List.mem_map.mp h with ⟨s, _, rfl⟩
  exact ⟨rfl, rfl, rfl⟩

theorem stats_jira_mode {strs : List String} {mode : Nat} {st : QStat}
    (h : st ∈ StringsToStats strs mode "jira" "jira")
    (hmode : modeROorRW mode = true) :
    st.uid = "jira" ∧ st.gid = "jira" ∧ modeROorRW st.mode = true := by
  obtain ⟨hm, hu, hg⟩ := mem_StringsToStats h
  exact ⟨hu, hg, hm ▸ hmode⟩

/-- C9 counterexample, two independent violations of the claim:
(1) the issue listing reports `key` with mode `0777` (read-write) while
walking `key` produces a `0555` read-only file, so the listed bits do
not match the walked bits; (2) `AllIssuesView.List` lists `help` and
`structure` with mode `055`, which is neither the read-only `0555` nor
the read-write `0777` form, and which differentiates user classes: the
owner gets no bits (`055/64 % 8 = 0`) while the group gets `r-x`
(`055/8 % 8 = 5`). -/
theorem C9_listing_mode_counterexample :
    ((⟨"key", 0o777, "jira", "jira"⟩ : QStat) ∈ issueViewList false
      ∧ normalWalkNode (.ok sampleIssue) (.ok []) "key"
          = .ok (some (.file "key" 0o555 "jira" "jira" false true))
      ∧ (0o777 : Nat) ≠ 0o555)
    ∧ ((⟨"help", 0o55, "jira", "jira"⟩ : QStat) ∈ allIssuesViewList []
      ∧ (⟨"structure", 0o55, "jira", "jira"⟩ : QStat) ∈ allIssuesViewList []
      ∧ modeROorRW 0o55 = false
      ∧ (0o55 : Nat) / 64 % 8 = 0 ∧ (0o55 : Nat) / 8 % 8 = 5) :=
  ⟨⟨by decide, rfl, by decide⟩, by decide⟩

theorem normalFieldNode_props (file : String) :
    (normalFieldNode file).uid = "jira" ∧ (normalFieldNode file).gid = "jira"
    ∧ ((normalFieldNode file).mode = 0o555 ∨ (normalFieldNode file).mode = 0o777) := by
  unfold normalFieldNode
  cases h : normalWritable file <;>
    simp [h, WalkNode.uid, WalkNode.gid, WalkNode.mode]

theorem normalWalkNode_node (gi : Except JErr Issue) (gt : Except JErr (List String))
    (file : String) (node : WalkNode) (h : normalWalkNode gi gt file = .ok (some node)) :
    node.uid = "jira" ∧ node.gid = "jira" ∧ modeROorRW node.mode = true := by
  cases gi with
  | error e =>
      simp only [normalWalkNode] at h
      split at h
      · exact absurd h (by simp)
      · exact absurd h (by simp)
  | ok issue =>
      simp only [normalWalkNode] at h
      by_cases hex : (!StringExistsInSets file [normalFiles, normalDirs]) = true
      · rw [if_pos hex] at h
        exact absurd h (by simp)
      · rw [if_neg hex] at h
        by_cases h1 : (file == "comments" || file == "worklog") = true
        · rw [if_pos h1] at h
          obtain rfl : WalkNode.dir file (0o555 ||| DMDIR) "jira" "jira" = node := by
            simpa using h
          exact ⟨rfl, rfl, by simp only [WalkNode.mode]; decide⟩
        · rw [if_neg h1] at h
          by_cases h2 : (file == "ctl") = true
          · rw [if_pos h2] at h
            obtain rfl : WalkNode.cmdFile "ctl" 0o777 "jira" "jira" ["delete"] = node := by
              simpa using h
            exact ⟨rfl, rfl, by decide⟩
          · rw [if_neg h2] at h
            by_cases h3 : (file == "transition") = true
            · rw [if_pos h3] at h
              cases gt with
              | error e => exact absurd h (by simp)
              | ok trs =>
                  obtain rfl : normalFieldNode file = node := by simpa using h
                  have hp := normalFieldNode_props file
                  refine ⟨hp.1, hp.2.1, ?_⟩
                  rcases hp.2.2 with hm | hm <;> rw [hm] <;> decide
            · rw [if_neg h3] at h
              obtain rfl : normalFieldNode file = node := by simpa using h
              have hp := normalFieldNode_props file
              refine ⟨hp.1, hp.2.1, ?_⟩
              rcases hp.2.2 with hm | hm <;> rw [hm] <;> decide

theorem commentViewWalkNode_node (g : Except JErr Unit) (file : String) (node : WalkNode)
    (h : commentViewWalkNode g file = .ok (some node)) :
    node.uid = "jira" ∧ node.gid = "jira" ∧ modeROorRW node.mode = true := by
  unfold commentViewWalkNode at h
  split_ifs at h
  · exact absurd h (by simp)
  · cases g with
    | error e => simp at h
    | ok u =>
        obtain rfl : _ = node := by simpa using h
        refine ⟨rfl, rfl, ?_⟩
        simp only [WalkNode.mode]
        by_cases hc : file = "comment"
        · rw [if_pos hc]; decide
        · rw [if_neg hc]; decide

theorem jiraViewWalk_node (jw : JiraViewState) (file : String) (node : WalkNode)
    (h : jiraViewWalk jw file = some node) :
    node.uid = "jira" ∧ node.gid = "jira" ∧ modeROorRW node.mode = true := by
  unfold jiraViewWalk at h
  split_ifs at h
  · obtain rfl := Option.some.inj h
    exact ⟨rfl, rfl, by decide⟩
  · obtain rfl := Option.some.inj h
    exact ⟨rfl, rfl, by decide⟩
  · obtain rfl := Option.some.inj h
    exact ⟨rfl, rfl, by decide⟩
  · obtain rfl := Option.some.inj h
    exact ⟨rfl, rfl, by decide⟩
  · obtain rfl := Option.some.inj h
    exact ⟨rfl, rfl, by decide⟩
  · obtain rfl := Option.some.inj h
    exact ⟨rfl, rfl, by simp only [WalkNode.mode]; decide⟩

theorem newWalkNode_node (file : String) (node : WalkNode)
    (h : newWalkNode file = some node) :
    node.uid = "jira" ∧ node.gid = "jira" ∧ modeROorRW node.mode = true := by
  unfold newWalkNode at h
  split_ifs at h
  · obtain rfl := Option.some.inj h
    exact ⟨rfl, rfl, by decide⟩
  · obtain rfl := Option.some.inj h
    exact ⟨rfl, rfl, by simp only [WalkNode.mode]; decide⟩

theorem worklogViewWalkNode_node (g : Except JErr Unit) (file : String) (node : WalkNode)
    (h : worklogViewWalkNode g file = .ok (some node)) :
    node.uid = "jira" ∧ node.gid = "jira" ∧ modeROorRW node.mode = true := by
  cases g with
  | error e => simp [worklogViewWalkNode] at h
  | ok u =>
      simp only [worklogViewWalkNode] at h
      split_ifs at h
      · obtain rfl : _ = node := by simpa using h
        exact ⟨rfl, rfl, by simp only [WalkNode.mode]; decide⟩
      · exact absurd h (by simp)

theorem issueWorklogViewWalkNode_node (g : Except JErr (List String)) (file : String)
    (node : WalkNode) (h : issueWorklogViewWalkNode g file = .ok (some node)) :
    node.uid = "jira" ∧ node.gid = "jira" ∧ modeROorRW node.mode = true := by
  cases g with
  | error e => simp [issueWorklogViewWalkNode] at h
  | ok ids =>
      simp only [issueWorklogViewWalkNode] at h
      split_ifs at h
      · obtain rfl : _ = node := by simpa using h
        exact ⟨rfl, rfl, by simp only [WalkNode.mode]; decide⟩
      · exact absurd h (by simp)

theorem issueCommentViewWalkNode_node (g : String → Except JErr Unit) (file : String)
    (node : WalkNode) (h : issueCommentViewWalkNode g file = .ok (some node)) :
    node.uid = "jira" ∧ node.gid = "jira" ∧ modeROorRW node.mode = true := by
  unfold issueCommentViewWalkNode at h
  split_ifs at h
  · obtain rfl : _ = node := by simpa using h
    exact ⟨rfl, rfl, by decide⟩
  · cases hg : g file with
    | error e => rw [hg] at h; exact absurd h (by simp)
    | ok u =>
        rw [hg] at h
        obtain rfl : _ = node := by simpa using h
        exact ⟨rfl, rfl, by simp only [WalkNode.mode]; decide⟩

theorem projectViewWalkNode_node (g : Except JErr Unit) (file : String) (node : WalkNode)
    (h : projectViewWalkNode g file = .ok (some node)) :
    node.uid = "jira" ∧ node.gid = "jira" ∧ modeROorRW node.mode = true := by
  unfold projectViewWalkNode at h
  split_ifs at h
  · obtain rfl : _ = node := by simpa using h
    exact ⟨rfl, rfl, by decide⟩
  · cases g with
    | error e => simp at h
    | ok u =>
        obtain rfl : _ = node := by simpa using h
        exact ⟨rfl, rfl, by simp only [WalkNode.mode]; decide⟩
  · exact absurd h (by simp)

theorem allProjectsViewWalkNode_node (g : Except JErr (List String))
    (projectName : String) (node : WalkNode)
    (h : allProjectsViewWalkNode g projectName = .ok (some node)) :
    node.uid = "jira" ∧ node.gid = "jira" ∧ modeROorRW node.mode = true := by
  cases g with
  | error e => simp [allProjectsViewWalkNode] at h
  | ok keys =>
      simp only [allProjectsViewWalkNode] at h
      split_ifs at h
      · obtain rfl : _ = node := by simpa using h
        exact ⟨rfl, rfl, by simp only [WalkNode.mode]; decide⟩
      · exact absurd h (by simp)

theorem searchWalk_node (env : Env) (sv : SearchViewState) (file : String)
    (node : WalkNode) (h : (searchWalk env sv file).1 = .ok (some node)) :
    node.uid = "jira" ∧ node.gid = "jira" ∧ modeROorRW node.mode = true := by
  unfold searchWalk at h
  split_ifs at h
  · cases hg : env.getIssue file with
    | error e => rw [hg] at h; exact absurd h (by simp)
    | ok issue =>
        rw [hg] at h
        obtain ⟨k, fl⟩ := issue
        cases fl with
        | none => exact absurd h (by simp)
        | some flds =>
            obtain rfl : _ = node := by simpa using h
            exact ⟨rfl, rfl, by simp only [WalkNode.mode]; decide⟩

theorem projectIssuesWalk_node (gi : String → Except JErr Issue) (project name : String)
    (node : WalkNode) (h : (projectIssuesWalk gi project name).1 = .ok (some node)) :
    node.uid = "jira" ∧ node.gid = "jira" ∧ modeROorRW node.mode = true := by
  simp only [projectIssuesWalk] at h
  split_ifs at h
  · obtain rfl : _ = node := by simpa using h
    exact ⟨rfl, rfl, by simp only [WalkNode.mode]; decide⟩
  · cases hp : goParseUint10 name with
    | none => rw [hp] at h; exact absurd h (by simp)
    | some v =>
        rw [hp] at h
        cases hg : gi (project ++ "-" ++ name) with
        | error e => rw [hg] at h; exact absurd h (by simp)
        | ok issue =>
            rw [hg] at h
            obtain rfl : _ = node := by simpa using h
            exact ⟨rfl, rfl, by simp only [WalkNode.mode]; decide⟩

theorem allIssuesWalk_node (gi : String → Except JErr Issue) (name : String)
    (node : WalkNode) (h : (allIssuesWalk gi name).1 = .ok (some node)) :
    node.uid = "jira" ∧ node.gid = "jira" ∧ modeROorRW node.mode = true := by
  simp only [allIssuesWalk] at h
  split_ifs at h
  · obtain rfl : _ = node := by simpa using h
    exact ⟨rfl, rfl, by simp only [WalkNode.mode]; decide⟩
  · obtain rfl : _ = node := by simpa using h
    exact ⟨rfl, rfl, by simp only [WalkNode.mode]; decide⟩
  · obtain rfl : _ = node := by simpa using h
    exact ⟨rfl, rfl, by simp only [WalkNode.mode]; decide⟩
  · exact absurd h (by simp)
  · cases hp : goParseUint10 ((splitOnChar '-' (goToUpper name)).getD 1 "") with
    | none => rw [hp] at h; exact absurd h (by simp)
    | some v =>
        rw [hp] at h
        cases hg : gi name with
        | error e => rw [hg] at h; exact absurd h (by simp)
        | ok issue =>
            rw [hg] at h
            obtain ⟨k, fl⟩ := issue
            cases fl with
            | none => exact absurd h (by simp)
            | some flds =>
                obtain rfl : _ = node := by simpa using h
                exact ⟨rfl, rfl, by simp only [WalkNode.mode]; decide⟩

/-- C9 (amended by exactly the two counterexamples): every synthetic file
and directory entry — every listing stat and every walk-produced node of
the embedded view hierarchy — carries the fixed owner/group identity
`jira`/`jira`, and its permission bits are per-field read-only (`0555`)
or read-write (`0777`), as plain entry or directory, with two
exceptions the code exhibits: `AllIssuesView.List` lists `help` and
`structure` with mode `055` (neither form), and issue listings do not
reproduce the per-walk bits — `IssueView.List` reports every file as
`0777` and every directory as `0777|DMDIR`, so the read-only fields
`key`, `project` and `progress`, which walk as `0555` files, are listed
read-write. -/
theorem C9_owner_and_modes :
    (∀ b : Bool, ∀ st ∈ issueViewList b,
      st.uid = "jira" ∧ st.gid = "jira"
        ∧ (st.mode = 0o777 ∨ st.mode = 0o777 ||| DMDIR))
    ∧ (∀ st ∈ worklogViewList ++ commentViewList ++ projectViewList,
        st.uid = "jira" ∧ st.gid = "jira" ∧ modeROorRW st.mode = true)
    ∧ (∀ xs : List String,
        ∀ st ∈ issueWorklogViewList xs ++ issueCommentViewList xs
          ++ allProjectsViewList xs ++ projectIssuesViewList xs ++ jiraViewList xs,
        st.uid = "jira" ∧ st.gid = "jira" ∧ modeROorRW st.mode = true)
    ∧ (∀ keys : List String, ∀ st ∈ allIssuesViewList keys,
        st.uid = "jira" ∧ st.gid = "jira"
          ∧ (modeROorRW st.mode = true
              ∨ (st.mode = 0o55 ∧ (st.name = "help" ∨ st.name = "structure"))))
    ∧ (∀ (jw : JiraViewState) (file : String) (node : WalkNode),
        jiraViewWalk jw file = some node →
        node.uid = "jira" ∧ node.gid = "jira" ∧ modeROorRW node.mode = true)
    ∧ (∀ (file : String) (node : WalkNode), newWalkNode file = some node →
        node.uid = "jira" ∧ node.gid = "jira" ∧ modeROorRW node.mode = true)
    ∧ (∀ (g : Except JErr Unit) (file : String) (node : WalkNode),
        worklogViewWalkNode g file = .ok (some node) →
        node.uid = "jira" ∧ node.gid = "jira" ∧ modeROorRW node.mode = true)
    ∧ (∀ (g : Except JErr (List String)) (file : String) (node : WalkNode),
        issueWorklogViewWalkNode g file = .ok (some node) →
        node.uid = "jira" ∧ node.gid = "jira" ∧ modeROorRW node.mode = true)
    ∧ (∀ (g : String → Except JErr Unit) (file : String) (node : WalkNode),
        issueCommentViewWalkNode g file = .ok (some node) →
        node.uid = "jira" ∧ node.gid = "jira" ∧ modeROorRW node.mode = true)
    ∧ (∀ (g : Except JErr Unit) (file : String) (node : WalkNode),
        projectViewWalkNode g file = .ok (some node) →
        node.uid = "jira" ∧ node.gid = "jira" ∧ modeROorRW node.mode = true)
    ∧ (∀ (g : Except JErr (List String)) (projectName : String) (node : WalkNode),
        allProjectsViewWalkNode g projectName = .ok (some node) →
        node.uid = "jira" ∧ node.gid = "jira" ∧ modeROorRW node.mode = true)
    ∧ (∀ (gi : Except JErr Issue) (gt : Except JErr (List String)) (file : String)
        (node : WalkNode), normalWalkNode gi gt file = .ok (some node) →
        node.uid = "jira" ∧ node.gid = "jira" ∧ modeROorRW node.mode = true)
    ∧ (∀ (g : Except JErr Unit) (file : String) (node : WalkNode),
        commentViewWalkNode g file = .ok (some node) →
        node.uid = "jira" ∧ node.gid = "jira" ∧ modeROorRW node.mode = true)
    ∧ (∀ (env : Env) (sv : SearchViewState) (file : String) (node : WalkNode),
        (searchWalk env sv file).1 = .ok (some node) →
        node.uid = "jira" ∧ node.gid = "jira" ∧ modeROorRW node.mode = true)
    ∧ (∀ (gi : String → Except JErr Issue) (project name : String) (node : WalkNode),
        (projectIssuesWalk gi project name).1 = .ok (some node) →
        node.uid = "jira" ∧ node.gid = "jira" ∧ modeROorRW node.mode = true)
    ∧ (∀ (gi : String → Except JErr Issue) (name : String) (node : WalkNode),
        (allIssuesWalk gi name).1 = .ok (some node) →
        node.uid = "jira" ∧ node.gid = "jira" ∧ modeROorRW node.mode = true)
    ∧ (∀ (issue : Issue) (trs : Except JErr (List String)),
        normalWalkNode (.ok issue) trs "key"
          = .ok (some (.file "key" 0o555 "jira" "jira" false true))
        ∧ normalWalkNode (.ok issue) trs "project"
          = .ok (some (.file "project" 0o555 "jira" "jira" false true))
        ∧ normalWalkNode (.ok issue) trs "progress"
          = .ok (some (.file "progress" 0o555 "jira" "jira" false true))
        ∧ ∀ name ∈ ["key", "project", "progress"],
            (⟨name, 0o777, "jira", "jira"⟩ : QStat) ∈ issueViewList false) := by
  refine ⟨?_, by decide, ?_, ?_, jiraViewWalk_node, newWalkNode_node,
    worklogViewWalkNode_node, issueWorklogViewWalkNode_node,
    issueCommentViewWalkNode_node, projectViewWalkNode_node,
    allProjectsViewWalkNode_node, normalWalkNode_node, commentViewWalkNode_node,
    searchWalk_node, projectIssuesWalk_node, allIssuesWalk_node, ?_⟩
  · intro b
    cases b <;> decide
  · intro xs st h
    rcases List.mem_append.mp h with h | h
    · rcases List.mem_append.mp h with h | h
      · rcases List.mem_append.mp h with h | h
        · rcases List.mem_append.mp h with h | h
          · simp only [issueWorklogViewList] at h
            exact stats_jira_mode h (by decide)
          · simp only [issueCommentViewList] at h
            rcases List.mem_append.mp h with h | h
            · exact stats_jira_mode h (by decide)
            · exact stats_jira_mode h (by decide)
        · simp only [allProjectsViewList] at h
          exact stats_jira_mode h (by decide)
      · simp only [projectIssuesViewList] at h
        exact stats_jira_mode h (by decide)
    · simp only [jiraViewList] at h
      rcases List.mem_append.mp h with h | h
      · rcases List.mem_append.mp h with h | h
        · rcases List.mem_append.mp h with h | h
          · exact stats_jira_mode h (by decide)
          · exact stats_jira_mode h (by decide)
        · exact stats_jira_mode h (by decide)
      · exact stats_jira_mode h (by decide)
  · intro keys st h
    simp only [allIssuesViewList] at h
    rcases List.mem_append.mp h with h | h
    · obtain ⟨hm, hu, hg⟩ := mem_StringsToStats h
      exact ⟨hu, hg, Or.inl (by rw [hm]; decide)⟩
    · obtain ⟨hm, hu, hg⟩ := mem_StringsToStats h
      refine ⟨hu, hg, Or.inr ⟨hm, ?_⟩⟩
      rcases List.mem_map.mp h with ⟨s, hs, rfl⟩
      simp only [List.mem_cons, List.not_mem_nil, or_false] at hs
      rcases hs with rfl | rfl
      · exact Or.inl rfl
      · exact Or.inr rfl
  · intro issue trs
    exact ⟨rfl, rfl, rfl, by decide⟩

/-- Witness for C9: the root view's `ctl` walk node instantiates the
walk-node conjunct at a concrete input. -/
theorem C9_owner_and_modes_witness :
    WalkNode.uid (.cmdFile "ctl" 0o777 "jira" "jira" ["search", "pass-login", "set"])
        = "jira"
    ∧ WalkNode.gid (.cmdFile "ctl" 0o777 "jira" "jira" ["search", "pass-login", "set"])
        = "jira"
    ∧ modeROorRW
        (WalkNode.mode (.cmdFile "ctl" 0o777 "jira" "jira" ["search", "pass-login", "set"]))
        = true :=
  C9_owner_and_modes.2.2.2.2.1 ⟨[]⟩ "ctl"
    (.cmdFile "ctl" 0o777 "jira" "jira" ["search", "pass-login", "set"]) rfl

/-! ## Issue-name validation (`ProjectIssuesView.Walk`, `AllIssuesView.Walk`) -/

/-- C10: issue-name validation is local. On a project's issue list, any
name other than `new` that does not parse as an unsigned decimal is
not-found with an empty remote-call log; on the global issue list, any
name other than `new`/`help`/`structure` that does not split into
exactly `PREFIX-NUMBER` with a numeric second piece is not-found with an
empty remote-call log. -/
theorem C10_local_validation (getIssue : String → Except JErr Issue)
    (project name : String) :
    (name ≠ "new" → goParseUint10 name = none →
      projectIssuesWalk getIssue project name = (.ok none, []))
    ∧ (name ≠ "new" → name ≠ "help" → name ≠ "structure" →
        ((splitOnChar '-' (goToUpper name)).length ≠ 2
          ∨ goParseUint10 ((splitOnChar '-' (goToUpper name)).getD 1 "") = none) →
        allIssuesWalk getIssue name = (.ok none, [])) := by
  constructor
  · intro hnew hparse
    simp only [projectIssuesWalk]
    rw [if_neg (by simpa using hnew), hparse]
  · intro hnew hhelp hstruct hval
    simp only [allIssuesWalk]
    rw [if_neg (by simpa using hnew), if_neg (by simpa using hhelp),
      if_neg (by simpa using hstruct)]
    by_cases hlen2 : ((splitOnChar '-' (goToUpper name)).length != 2) = true
    · rw [if_pos hlen2]
    · rw [if_neg hlen2]
      rcases hval with hlen | hparse
      · exact absurd (by simpa using hlen) hlen2
      · rw [hparse]

/-- Witness for C10: `abc` is not a number, so the project issue list
rejects it locally; `ABC` has no dash, so the global issue list rejects
it locally — both with an empty call log. -/
theorem C10_local_validation_witness :
    projectIssuesWalk (fun _ => .ok sampleIssue) "ABC" "abc" = (.ok none, [])
    ∧ allIssuesWalk (fun _ => .ok sampleIssue) "ABC" = (.ok none, []) :=
  ⟨(C10_local_validation (fun _ => .ok sampleIssue) "ABC" "abc").1 (by decide) rfl,
   (C10_local_validation (fun _ => .ok sampleIssue) "ABC" "ABC").2
     (by decide) (by decide) (by decide) (Or.inl (by decide))⟩

end Jirafs
